import Mathlib

/-
Verification of the back-translation data-augmentation driver (main.py).

The program works on Python strings; we embed them as `List Char`.
`str.replace`, `in`, `str.find` and slicing are modelled by executable
functions on `List Char` with Python's semantics (left-to-right,
non-overlapping replacement; first-occurrence search; `find` with a start
offset).  Fallible steps (IndexError on `st[start_pos + 8]`, the two
`assert` statements, the tuple-unpack of `zip(*data[1:])`) are modelled
with `Option` / `Except`.
-/

namespace Backtranslator

abbrev Str := List Char

/-- Pattern `"<br />"` (main.py line 16). -/
def brTag : Str := "<br />".toList

/-- Pattern `"&quot;"` (main.py line 17). -/
def quotEnt : Str := "&quot;".toList

/-- Pattern `"<p>"` (main.py line 18). -/
def pTag : Str := "<p>".toList

/-- Pattern `"<a href="` (main.py lines 19-28). -/
def aHrefTag : Str := "<a href=".toList

/-- Pattern `"</a>"` (main.py line 31). -/
def closeATag : Str := "</a>".toList

/-- Pattern `">"` (main.py line 22). -/
def gtStr : Str := ">".toList

/-- The two-character sequence backslash-n, Python's `"\\n"` (main.py line 32). -/
def backslashN : Str := "\\n".toList

/-- A single space, the replacement text of lines 16, 18 and 32. -/
def spaceStr : Str := " ".toList

/-- A double quote, the replacement text of line 17. -/
def dquoteStr : Str := "\"".toList

/-- Worker for `replaceAll`.  The counter `k` is the number of characters of a
match that still have to be consumed without being copied to the output. -/
def replaceAllAux (pat rep : Str) : Str → Nat → Str
  | [], _ => []
  | _ :: rest, Nat.succ k => replaceAllAux pat rep rest k
  | c :: rest, 0 =>
    if pat ≠ [] ∧ pat.isPrefixOf (c :: rest) then
      rep ++ replaceAllAux pat rep rest (pat.length - 1)
    else
      c :: replaceAllAux pat rep rest 0

/-- Python's `s.replace(pat, rep)`: replace the non-overlapping occurrences of
`pat`, scanning left to right; the replacement text is not rescanned. -/
def replaceAll (pat rep s : Str) : Str :=
  replaceAllAux pat rep s 0

/-- Python's `s.find(pat)`: index of the first occurrence, `none` for `-1`. -/
def findSub (pat : Str) : Str → Option Nat
  | [] => if pat.isPrefixOf ([] : Str) then some 0 else none
  | c :: rest =>
    if pat.isPrefixOf (c :: rest) then some 0
    else (findSub pat rest).map (fun i => i + 1)

/-- Python's `pat in s` substring test. -/
def containsSub (pat s : Str) : Bool :=
  (findSub pat s).isSome

/-- Python's `s.find(pat, start)`: search only in `s[start:]`, report an
absolute index. -/
def findFrom (pat s : Str) (start : Nat) : Option Nat :=
  (findSub pat (s.drop start)).map (fun i => i + start)

theorem findSub_isPrefixOf_drop (pat : Str) :
    ∀ (s : Str) (i : Nat), findSub pat s = some i →
      pat.isPrefixOf (s.drop i) = true := by
  intro s
  induction s with
  | nil =>
    intro i h
    unfold findSub at h
    by_cases hp : pat.isPrefixOf ([] : Str) = true
    · rw [if_pos hp] at h
      cases h
      simpa using hp
    · rw [if_neg hp] at h
      cases h
  | cons c rest ih =>
    intro i h
    unfold findSub at h
    by_cases hp : pat.isPrefixOf (c :: rest) = true
    · rw [if_pos hp] at h
      cases h
      simpa using hp
    · rw [if_neg hp] at h
      rcases Option.map_eq_some'.mp h with ⟨j, hj, hij⟩
      subst hij
      simpa [List.drop_succ_cons] using ih j hj

theorem findSub_lt_length (pat : Str) (hpat : pat ≠ []) :
    ∀ (s : Str) (i : Nat), findSub pat s = some i → i < s.length := by
  intro s
  induction s with
  | nil =>
    intro i h
    unfold findSub at h
    cases pat with
    | nil => exact absurd rfl hpat
    | cons p ps => simp [List.isPrefixOf] at h
  | cons c rest ih =>
    intro i h
    unfold findSub at h
    by_cases hp : pat.isPrefixOf (c :: rest) = true
    · rw [if_pos hp] at h
      cases h
      simp
    · rw [if_neg hp] at h
      rcases Option.map_eq_some'.mp h with ⟨j, hj, hij⟩
      subst hij
      have := ih j hj
      simp only [List.length_cons]
      omega

theorem findFrom_bounds (pat s : Str) (k e : Nat) (hpat : pat ≠ [])
    (h : findFrom pat s k = some e) : k ≤ e ∧ e < s.length := by
  unfold findFrom at h
  rcases Option.map_eq_some'.mp h with ⟨j, hj, hje⟩
  subst hje
  have hlt := findSub_lt_length pat hpat _ j hj
  rw [List.length_drop] at hlt
  omega

/-- One iteration of the `while "<a href=" in st` loop (main.py lines 20-29).
`none` encodes Python raising an exception: either the loop guard failed (the
caller never does this) or `st[start_pos + 8]` is out of range (IndexError in
the incomplete-href branch). -/
def anchorStep (st : Str) : Option Str :=
  match findSub aHrefTag st with
  | none => none
  | some start =>
    match findFrom gtStr st start with
    | some e => some (st.take start ++ st.drop (e + 1))
    | none => (st[start + aHrefTag.length]?).map (fun ch => st.take start ++ [ch])

theorem anchorStep_some_length (st st2 : Str) (h : anchorStep st = some st2) :
    st2.length < st.length := by
  unfold anchorStep at h
  split at h
  · cases h
  · rename_i start hf
    have hs : start < st.length := findSub_lt_length aHrefTag (by decide) st start hf
    split at h
    · rename_i e hg
      have hb := findFrom_bounds gtStr st start e (by decide) hg
      cases h
      simp only [List.length_append, List.length_take, List.length_drop]
      omega
    · rename_i hg
      cases hge : st[start + aHrefTag.length]? with
      | none => rw [hge] at h; cases h
      | some ch =>
        rw [hge] at h
        have hlt : start + aHrefTag.length < st.length := by
          by_contra hge2
          rw [List.getElem?_eq_none (by omega)] at hge
          cases hge
        cases h
        have h8 : aHrefTag.length = 8 := by decide
        rw [h8] at hlt
        simp only [List.length_append, List.length_take, List.length_cons,
          List.length_nil]
        omega

/-- The whole `while "<a href=" in st` loop (main.py lines 20-29): iterate
`anchorStep` while the guard holds; `none` is a raised IndexError. -/
def anchorLoop (st : Str) : Option Str :=
  if containsSub aHrefTag st then
    match h : anchorStep st with
    | some st2 => anchorLoop st2
    | none => none
  else some st
termination_by st.length
decreasing_by exact anchorStep_some_length st st2 h

theorem anchorLoop_of_not_contains (st : Str)
    (h : containsSub aHrefTag st = false) : anchorLoop st = some st := by
  rw [anchorLoop]
  simp [h]

theorem anchorLoop_of_step (st st2 : Str)
    (hc : containsSub aHrefTag st = true) (hs : anchorStep st = some st2) :
    anchorLoop st = anchorLoop st2 := by
  rw [anchorLoop]
  simp only [hc, if_true]
  split
  · rename_i st3 heq
    rw [hs] at heq
    cases heq
    rfl
  · rename_i heq
    rw [hs] at heq
    cases heq

theorem anchorLoop_of_step_none (st : Str)
    (hc : containsSub aHrefTag st = true) (hs : anchorStep st = none) :
    anchorLoop st = none := by
  rw [anchorLoop]
  simp only [hc, if_true]
  split
  · rename_i st3 heq
    rw [hs] at heq
    cases heq
  · rfl

theorem anchorLoop_no_tag (st : Str) :
    ∀ r : Str, anchorLoop st = some r → containsSub aHrefTag r = false := by
  induction st using anchorLoop.induct with
  | case1 st hc st2 hs ih =>
    intro r hr
    rw [anchorLoop_of_step st st2 (by simpa using hc) hs] at hr
    exact ih r hr
  | case2 st hc hs =>
    intro r hr
    rw [anchorLoop_of_step_none st (by simpa using hc) hs] at hr
    cases hr
  | case3 st hc =>
    intro r hr
    rw [anchorLoop_of_not_contains st (by simpa using hc)] at hr
    cases hr
    simpa using hc

/-- The three unconditional replacements of main.py lines 16-18, in source
order: `"<br />"` to space, `"&quot;"` to a double quote, `"<p>"` to space. -/
def stage3 (st : Str) : Str :=
  replaceAll pTag spaceStr (replaceAll quotEnt dquoteStr (replaceAll brTag spaceStr st))

/-- Lines 19-31: the anchor-removal block.  Only when `"<a href=" in st` does
the loop run, and only then is `st.replace("</a>", "")` applied. -/
def cleanAnchorStage (s3 : Str) : Option Str :=
  if containsSub aHrefTag s3 then
    (anchorLoop s3).map (fun r => replaceAll closeATag [] r)
  else some s3

/-- Translation of `clean_for_imdb` (main.py lines 12-33).  `none` is the
IndexError that `st[start_pos + 8]` can raise in the incomplete-href branch. -/
def clean_for_imdb (st : Str) : Option Str :=
  (cleanAnchorStage (stage3 st)).map (fun s => replaceAll backslashN spaceStr s)

/-- The cleaning behaviour exactly as claim C5 words it: the same three leading
replacements, then the anchor-tag removal and the removal of every `"</a>"`
applied unconditionally, then backslash-n to space.  (Definition written from
the claim's words, to be compared with the source translation
`clean_for_imdb`.) -/
def cleanForImdbClaim (st : Str) : Option Str :=
  ((anchorLoop (stage3 st)).map (fun r => replaceAll closeATag [] r)).map
    (fun s => replaceAll backslashN spaceStr s)

/-- C8: clean_for_imdb terminates on every input string: every iteration of
the `while "<a href=" in st` loop that produces a new string strictly shortens
it, in the complete-tag branch and in the incomplete-href branch alike (this
length measure is also the termination argument of `anchorLoop`). -/
theorem anchorStep_shrinks (st st2 : Str) (h : anchorStep st = some st2) :
    st2.length < st.length :=
  anchorStep_some_length st st2 h

theorem anchorStep_shrinks_witness :
    anchorStep ("<a href=>xy".toList) = some ("xy".toList) ∧
    ("xy".toList).length < ("<a href=>xy".toList).length :=
  ⟨by decide, anchorStep_shrinks ("<a href=>xy".toList) ("xy".toList) (by decide)⟩

/-- C9 is false as stated: on the input backslash-n between `"<a"` and
`"href="`, the anchor-removal block is skipped (the string does not yet
contain `"<a href="`), and the final replacement of backslash-n by a space
manufactures a fresh `"<a href="`, which the returned string contains. -/
theorem clean_for_imdb_reintroduces_tag :
    clean_for_imdb ("<a\\nhref=".toList) = some ("<a href=".toList) ∧
    containsSub aHrefTag ("<a href=".toList) = true := by
  decide

/-- C9 (amended): the string produced by the `while "<a href=" in st` loop
itself contains no occurrence of `"<a href="`; only the later replacements
(`"</a>"` removal, backslash-n to space) can reintroduce one. -/
theorem anchorLoop_result_no_tag (st r : Str) (h : anchorLoop st = some r) :
    containsSub aHrefTag r = false :=
  anchorLoop_no_tag st r h

theorem anchorLoop_result_no_tag_witness :
    containsSub aHrefTag ("hello".toList) = false :=
  anchorLoop_result_no_tag ("hello".toList) ("hello".toList)
    (anchorLoop_of_not_contains ("hello".toList) (by decide))

/-- C5 is false as stated: `"</a>"` is only removed inside the
`if "<a href=" in st` branch, so on the input `"</a>"` the source function
returns it unchanged while the claimed behaviour would return the empty
string. -/
theorem clean_for_imdb_claim_counterexample :
    clean_for_imdb ("</a>".toList) = some ("</a>".toList) ∧
    cleanForImdbClaim ("</a>".toList) = some [] := by
  constructor
  · decide
  · unfold cleanForImdbClaim
    rw [show stage3 ("</a>".toList) = "</a>".toList from by decide]
    rw [anchorLoop_of_not_contains ("</a>".toList) (by decide)]
    decide

/-- C5 (amended): clean_for_imdb behaves exactly as the claim describes
whenever the string, after the `"<br />"`, `"&quot;"` and `"<p>"`
replacements, contains `"<a href="`; otherwise the anchor removal and the
`"</a>"` removal are both skipped and only the backslash-n replacement is
applied. -/
theorem clean_for_imdb_amended (st : Str) :
    (containsSub aHrefTag (stage3 st) = true →
      clean_for_imdb st = cleanForImdbClaim st) ∧
    (containsSub aHrefTag (stage3 st) = false →
      clean_for_imdb st = some (replaceAll backslashN spaceStr (stage3 st))) := by
  constructor
  · intro h
    unfold clean_for_imdb cleanForImdbClaim cleanAnchorStage
    rw [if_pos h]
  · intro h
    unfold clean_for_imdb cleanAnchorStage
    rw [if_neg (by simp [h])]
    rfl

theorem clean_for_imdb_amended_witness :
    clean_for_imdb ("ab".toList) =
      some (replaceAll backslashN spaceStr (stage3 ("ab".toList))) :=
  (clean_for_imdb_amended ("ab".toList)).2 (by decide)

/-- Errors that can abort the driver before the output file is written. -/
inductive MainErr
  | unpackError
  | indexError
  | assertionError
deriving DecidableEq

/-- Pattern `"imdb"` (main.py line 77). -/
def imdbLower : Str := "imdb".toList

/-- Pattern `"IMDB"` (main.py line 77). -/
def imdbUpper : Str := "IMDB".toList

/-- `text, labels = list(zip(*data[1:]))` (main.py line 72).  Python's zip
truncates every row to the length of the shortest row, and the two-name
unpack succeeds exactly when that common length is 2; with no data rows the
unpack raises ValueError. -/
def transpose2 (rows : List (List Str)) : Option (List Str × List Str) :=
  if rows ≠ [] ∧ (∀ r ∈ rows, 2 ≤ r.length) ∧ (∃ r ∈ rows, r.length = 2) then
    some (rows.map (fun r => r.getD 0 []), rows.map (fun r => r.getD 1 []))
  else none

/-- The comprehension `[clean_for_imdb(t) for t in text]` (main.py line 78);
an IndexError raised by any element aborts the whole comprehension. -/
def cleanAll : List Str → Option (List Str)
  | [] => some []
  | t :: ts =>
    match clean_for_imdb t, cleanAll ts with
    | some c, some cs => some (c :: cs)
    | _, _ => none

/-- main.py lines 77-78: clean the texts exactly when the input path contains
`"imdb"` or `"IMDB"`. -/
def cleanStage (dataDir : Str) (text : List Str) : Option (List Str) :=
  if containsSub imdbLower dataDir || containsSub imdbUpper dataDir then
    cleanAll text
  else some text

/-- main.py lines 119-127: `assert len(labels) == len(back_translated_docs)`
guards the write; on success the header row is written followed by one
`[text, label]` row per document. -/
def writeStage (header : List Str) (docs labels : List Str) :
    Except MainErr (List (List Str)) :=
  if labels.length = docs.length then
    Except.ok (header :: (docs.zip labels).map (fun p => [p.1, p.2]))
  else
    Except.error MainErr.assertionError

/-- main (main.py lines 67-127) with the external back-translation abstracted
as `bt`, which the single-process paths apply to the whole cleaned text list.
The result is the list of rows written to the output file, or the error that
aborted the run before the output file was opened. -/
def runMain (bt : List Str → List Str) (dataDir : Str)
    (data : List (List Str)) : Except MainErr (List (List Str)) :=
  match data with
  | [] => Except.error MainErr.unpackError
  | header :: rows =>
    match transpose2 rows with
    | none => Except.error MainErr.unpackError
    | some (text, labels) =>
      match cleanStage dataDir text with
      | none => Except.error MainErr.indexError
      | some text2 => writeStage header (bt text2) labels

/-- main.py lines 84-91, the multi-GPU sharding.  With
`split_point = len(text) // len(gpus)`, each requested device index `g`
contributes the slice `text[g*split_point:(g+1)*split_point]`, and when
`g == len(gpus) - 1` the remainder `text[(g+1)*split_point:]` is appended to
the shard just added. -/
def shardTexts {α : Type} (gpus : List Nat) (text : List α) : List (List α) :=
  let sp := text.length / gpus.length
  gpus.map (fun g =>
    (text.drop (g * sp)).take sp ++
      (if g = gpus.length - 1 then text.drop ((g + 1) * sp) else []))

/-- main.py lines 216-219: `assert len(args.gpus) <= torch.cuda.device_count()`
runs right after argument parsing and before `main` is called; `true` means
the assertion fires.  `deviceCount` stands for the external
`torch.cuda.device_count()`. -/
def gpuGateFails (gpus : Option (List Nat)) (deviceCount : Nat) : Bool :=
  match gpus with
  | none => false
  | some l => decide (deviceCount < l.length)

theorem cleanAll_length (ts cs : List Str) (h : cleanAll ts = some cs) :
    cs.length = ts.length := by
  induction ts generalizing cs with
  | nil =>
    unfold cleanAll at h
    cases h
    rfl
  | cons t ts ih =>
    unfold cleanAll at h
    split at h
    · rename_i c cs2 hc hcs
      cases h
      simp only [List.length_cons]
      rw [ih cs2 hcs]
    · cases h

theorem cleanStage_length (dataDir : Str) (ts cs : List Str)
    (h : cleanStage dataDir ts = some cs) : cs.length = ts.length := by
  unfold cleanStage at h
  split at h
  · exact cleanAll_length ts cs h
  · cases h
    rfl

theorem runMain_eq (bt : List Str → List Str) (dataDir : Str)
    (header : List Str) (rows : List (List Str)) (text labels text2 : List Str)
    (ht : transpose2 rows = some (text, labels))
    (hc : cleanStage dataDir text = some text2) :
    runMain bt dataDir (header :: rows) = writeStage header (bt text2) labels := by
  unfold runMain
  simp only [ht, hc]

theorem transpose2_eq (rows : List (List Str)) (text labels : List Str)
    (h : transpose2 rows = some (text, labels)) :
    text = rows.map (fun r => r.getD 0 []) ∧
    labels = rows.map (fun r => r.getD 1 []) := by
  unfold transpose2 at h
  split at h
  · cases h
    exact ⟨rfl, rfl⟩
  · cases h

/-- C1 fails on the code: requesting device indices `[1, 2]` for a five-text
input takes the slices `text[2:4] ++ text[4:]` and `text[4:6]`, of sizes 3
and 1; their sum 4 differs from the 5 input texts, so the guarding
`assert sum(len(s) for s in text_splitted) == len(text)` fires.  The
requested device indices are used directly as slice positions, and the
remainder test compares the device index itself with `len(gpus) - 1`. -/
theorem shardTexts_gpus_one_two_bug :
    shardTexts [1, 2] [10, 20, 30, 40, 50] = [[30, 40, 50], [50]] ∧
    ((shardTexts [1, 2] [10, 20, 30, 40, 50]).map List.length).sum = 4 ∧
    ([10, 20, 30, 40, 50] : List Nat).length = 5 := by
  decide

/-- C6: with a GPU list supplied, the up-front assertion fails exactly when
the number of requested device indices exceeds the number of available CUDA
devices. -/
theorem gpuGateFails_iff (l : List Nat) (deviceCount : Nat) :
    gpuGateFails (some l) deviceCount = true ↔ deviceCount < l.length := by
  simp [gpuGateFails]

/-- C2: whenever the run writes an output, the label at each data-row
position of the output equals the label at the same data-row position of the
input, and the text column is exactly the back-translation of the cleaned
input texts. -/
theorem runMain_preserves_labels (bt : List Str → List Str) (dataDir : Str)
    (data out : List (List Str)) (h : runMain bt dataDir data = Except.ok out) :
    (out.drop 1).map (fun r => r.getD 1 []) =
      (data.drop 1).map (fun r => r.getD 1 []) ∧
    (∃ text2,
      cleanStage dataDir ((data.drop 1).map (fun r => r.getD 0 [])) = some text2 ∧
      (out.drop 1).map (fun r => r.getD 0 []) = bt text2) := by
  cases data with
  | nil => cases h
  | cons header rows =>
    rcases hto : transpose2 rows with _ | ⟨text, labels⟩
    · unfold runMain at h
      simp only [hto] at h
      cases h
    · obtain ⟨htext, hlabels⟩ := transpose2_eq rows text labels hto
      rcases hcs : cleanStage dataDir text with _ | text2
      · unfold runMain at h
        simp only [hto, hcs] at h
        cases h
      · rw [runMain_eq bt dataDir header rows text labels text2 hto hcs] at h
        unfold writeStage at h
        split at h
        · rename_i hlen
          cases h
          have hle : labels.length ≤ (bt text2).length := le_of_eq hlen
          simp only [List.drop_succ_cons, List.drop_zero, List.map_map]
          constructor
          · have hcomp :
                ((fun r => r.getD 1 ([] : Str)) ∘ fun p : Str × Str => [p.1, p.2]) =
                  Prod.snd := by
              funext p
              rfl
            rw [hcomp, List.map_snd_zip _ _ hle, hlabels]
          · refine ⟨text2, ?_, ?_⟩
            · rw [← htext]
              exact hcs
            · have hcomp :
                  ((fun r => r.getD 0 ([] : Str)) ∘ fun p : Str × Str => [p.1, p.2]) =
                    Prod.fst := by
                funext p
                rfl
              rw [hcomp, List.map_fst_zip]
              omega
        · cases h

/-- C3: assuming the back-translation returns exactly one output text per
input text, a run whose parse and cleanup stages succeed writes exactly one
data row for each input data row, plus the copied header row. -/
theorem runMain_row_count (bt : List Str → List Str) (dataDir : Str)
    (header : List Str) (rows : List (List Str)) (text labels text2 : List Str)
    (hbt : ∀ l : List Str, (bt l).length = l.length)
    (ht : transpose2 rows = some (text, labels))
    (hc : cleanStage dataDir text = some text2) :
    ∃ out, runMain bt dataDir (header :: rows) = Except.ok out ∧
      out.length = rows.length + 1 := by
  obtain ⟨htext, hlabels⟩ := transpose2_eq rows text labels ht
  have h1 : text.length = rows.length := by rw [htext]; simp
  have h2 : labels.length = rows.length := by rw [hlabels]; simp
  have h3 : text2.length = text.length := cleanStage_length dataDir text text2 hc
  have h4 : (bt text2).length = text2.length := hbt text2
  refine ⟨header :: ((bt text2).zip labels).map (fun p => [p.1, p.2]), ?_, ?_⟩
  · rw [runMain_eq bt dataDir header rows text labels text2 ht hc]
    unfold writeStage
    rw [if_pos (by omega)]
  · simp only [List.length_cons, List.length_map, List.length_zip]
    omega

/-- C4: whenever the run writes an output, its first row is the input header
row unchanged, and every later row consists of exactly the two fields
back-translated text and label. -/
theorem runMain_header_two_columns (bt : List Str → List Str) (dataDir : Str)
    (data out : List (List Str)) (h : runMain bt dataDir data = Except.ok out) :
    out.head? = data.head? ∧ ∀ r ∈ out.drop 1, r.length = 2 := by
  cases data with
  | nil => cases h
  | cons header rows =>
    rcases hto : transpose2 rows with _ | ⟨text, labels⟩
    · unfold runMain at h
      simp only [hto] at h
      cases h
    · rcases hcs : cleanStage dataDir text with _ | text2
      · unfold runMain at h
        simp only [hto, hcs] at h
        cases h
      · rw [runMain_eq bt dataDir header rows text labels text2 hto hcs] at h
        unfold writeStage at h
        split at h
        · cases h
          refine ⟨rfl, ?_⟩
          intro r hr
          simp only [List.drop_succ_cons, List.drop_zero] at hr
          rcases List.mem_map.mp hr with ⟨p, _, hpr⟩
          rw [← hpr]
          rfl
        · cases h

/-- C7: when the number of back-translated texts differs from the number of
labels, the run stops with the assertion error of main.py line 119; that
assert precedes the `open(output_dir, "wt")` of line 123, so no output rows
are produced. -/
theorem runMain_assert_before_write (bt : List Str → List Str) (dataDir : Str)
    (header : List Str) (rows : List (List Str)) (text labels text2 : List Str)
    (ht : transpose2 rows = some (text, labels))
    (hc : cleanStage dataDir text = some text2)
    (hne : (bt text2).length ≠ labels.length) :
    runMain bt dataDir (header :: rows) = Except.error MainErr.assertionError := by
  rw [runMain_eq bt dataDir header rows text labels text2 ht hc]
  unfold writeStage
  rw [if_neg (by omega)]

theorem containsSub_iff (pat s : Str) :
    containsSub pat s = true ↔ ∃ i, pat.isPrefixOf (s.drop i) = true := by
  constructor
  · intro h
    unfold containsSub at h
    cases hf : findSub pat s with
    | none => rw [hf] at h; cases h
    | some i => exact ⟨i, findSub_isPrefixOf_drop pat s i hf⟩
  · intro hex
    obtain ⟨i, hi⟩ := hex
    unfold containsSub
    induction s generalizing i with
    | nil =>
      rw [List.drop_nil] at hi
      unfold findSub
      rw [if_pos hi]
      rfl
    | cons c rest ih =>
      unfold findSub
      by_cases hp : pat.isPrefixOf (c :: rest) = true
      · rw [if_pos hp]
        rfl
      · rw [if_neg hp]
        cases i with
        | zero =>
          rw [List.drop_zero] at hi
          exact absurd hi hp
        | succ j =>
          rw [List.drop_succ_cons] at hi
          have hrec := ih j hi
          simpa using hrec

/-- C10: the IMDB cleanup is applied exactly when the input path contains
`"imdb"` or `"IMDB"` as a case-sensitive substring; `"Imdb"` contains
neither, so a path whose only near-match is `"Imdb"` leaves the texts
unmodified. -/
theorem cleanStage_imdb_iff (dataDir : Str) (text : List Str) :
    (((∃ i, imdbLower.isPrefixOf (dataDir.drop i) = true) ∨
      (∃ i, imdbUpper.isPrefixOf (dataDir.drop i) = true)) →
        cleanStage dataDir text = cleanAll text) ∧
    ((¬ ((∃ i, imdbLower.isPrefixOf (dataDir.drop i) = true) ∨
         (∃ i, imdbUpper.isPrefixOf (dataDir.drop i) = true))) →
        cleanStage dataDir text = some text) ∧
    (¬ (∃ i, imdbLower.isPrefixOf (("Imdb".toList).drop i) = true)) ∧
    (¬ (∃ i, imdbUpper.isPrefixOf (("Imdb".toList).drop i) = true)) := by
  refine ⟨?_, ?_, ?_, ?_⟩
  · intro h
    have hb : (containsSub imdbLower dataDir || containsSub imdbUpper dataDir) = true := by
      rw [Bool.or_eq_true]
      rcases h with h | h
      · exact Or.inl ((containsSub_iff imdbLower dataDir).mpr h)
      · exact Or.inr ((containsSub_iff imdbUpper dataDir).mpr h)
    unfold cleanStage
    rw [if_pos hb]
  · intro h
    have hb : ¬ ((containsSub imdbLower dataDir || containsSub imdbUpper dataDir) = true) := by
      intro hb
      rw [Bool.or_eq_true] at hb
      rcases hb with h1 | h1
      · exact h (Or.inl ((containsSub_iff imdbLower dataDir).mp h1))
      · exact h (Or.inr ((containsSub_iff imdbUpper dataDir).mp h1))
    unfold cleanStage
    rw [if_neg hb]
  · intro ⟨i, hi⟩
    have hcon : containsSub imdbLower ("Imdb".toList) = true :=
      (containsSub_iff imdbLower ("Imdb".toList)).mpr ⟨i, hi⟩
    exact absurd hcon (by decide)
  · intro ⟨i, hi⟩
    have hcon : containsSub imdbUpper ("Imdb".toList) = true :=
      (containsSub_iff imdbUpper ("Imdb".toList)).mpr ⟨i, hi⟩
    exact absurd hcon (by decide)

/-- A concrete two-column dataset with a header row and two data rows. -/
def demoData : List (List Str) :=
  [["text".toList, "label".toList],
   ["abc".toList, "1".toList],
   ["de".toList, "0".toList]]

/-- A concrete one-output-per-input back-translation: reverse each text. -/
def demoBt : List Str → List Str :=
  fun l => l.map List.reverse

/-- The rows `runMain demoBt "x.tsv" demoData` writes. -/
def demoOut : List (List Str) :=
  [["text".toList, "label".toList],
   ["cba".toList, "1".toList],
   ["ed".toList, "0".toList]]

theorem runMain_preserves_labels_witness :
    (demoOut.drop 1).map (fun r => r.getD 1 []) =
      (demoData.drop 1).map (fun r => r.getD 1 []) ∧
    (∃ text2,
      cleanStage ("x.tsv".toList)
        ((demoData.drop 1).map (fun r => r.getD 0 [])) = some text2 ∧
      (demoOut.drop 1).map (fun r => r.getD 0 []) = demoBt text2) :=
  runMain_preserves_labels demoBt ("x.tsv".toList) demoData demoOut (by rfl)

theorem runMain_row_count_witness :
    ∃ out, runMain demoBt ("x.tsv".toList)
        (["text".toList, "label".toList] ::
          [["abc".toList, "1".toList], ["de".toList, "0".toList]]) = Except.ok out ∧
      out.length = [["abc".toList, "1".toList], ["de".toList, "0".toList]].length + 1 :=
  runMain_row_count demoBt ("x.tsv".toList) ["text".toList, "label".toList]
    [["abc".toList, "1".toList], ["de".toList, "0".toList]]
    ["abc".toList, "de".toList] ["1".toList, "0".toList] ["abc".toList, "de".toList]
    (fun l => by simp [demoBt]) (by rfl) (by rfl)

theorem runMain_header_two_columns_witness :
    demoOut.head? = demoData.head? ∧ ∀ r ∈ demoOut.drop 1, r.length = 2 :=
  runMain_header_two_columns demoBt ("x.tsv".toList) demoData demoOut (by rfl)

theorem runMain_assert_before_write_witness :
    runMain (fun _ => []) ("x.tsv".toList)
      (["text".toList, "label".toList] ::
        [["abc".toList, "1".toList], ["de".toList, "0".toList]]) =
      Except.error MainErr.assertionError :=
  runMain_assert_before_write (fun _ => []) ("x.tsv".toList)
    ["text".toList, "label".toList]
    [["abc".toList, "1".toList], ["de".toList, "0".toList]]
    ["abc".toList, "de".toList] ["1".toList, "0".toList] ["abc".toList, "de".toList]
    (by rfl) (by rfl) (by decide)

theorem cleanStage_imdb_iff_witness :
    cleanStage ("dir/imdb_train.tsv".toList) [] = cleanAll [] :=
  (cleanStage_imdb_iff ("dir/imdb_train.tsv".toList) []).1 (Or.inl ⟨4, by decide⟩)

end Backtranslator
